import Mathlib

/-!
# Verification of the MLS shape-function pipeline (MLS.ipynb)

Shallow embedding of the per-point Moving Least Squares computation from the
notebook's main loop, over exact real arithmetic.  Machine floats are modelled
by `ℝ`; for the safety claim about division by a zero support radius a small
IEEE-style value domain `FloatV` (finite / ±∞ / NaN) is used.

The per-point pipeline is parametrised by the data the loop body reads for
point `i`:
* `nsd : Fin kk → ℝ × ℝ` — the neighbor coordinates `distnod[indices[i,:]]`;
* `dist : Fin kk → ℝ`    — the neighbor distances `distances[i,:]`;
* `a0 : ℝ`               — the support radius `a0[i]`;
* `IA : Matrix (Fin 6) (Fin 6) ℝ` — the result of `pinv(A)`; it is kept as a
  parameter (the Moore–Penrose inverse has no closed form here), and claims
  that need invertibility assume `IA * A = 1`, which is exactly what `pinv`
  returns for an invertible moment matrix.
-/

open Matrix

namespace MLS

/-! ## Selector vectors (source: `w`, `pdx`, `pdxx`, `pdy`, `pdyy`) -/

/-- Source `w = [1,0,0,0,0,0]`: evaluation of the basis at the local origin. -/
def w : Fin 6 → ℝ := ![1, 0, 0, 0, 0, 0]

/-- Source `pdx = [0,1,0,0,0,0]`. -/
def pdx : Fin 6 → ℝ := ![0, 1, 0, 0, 0, 0]

/-- Source `pdxx = [0,0,0,2,0,0]`. -/
def pdxx : Fin 6 → ℝ := ![0, 0, 0, 2, 0, 0]

/-- Source `pdy = [0,0,1,0,0,0]`. -/
def pdy : Fin 6 → ℝ := ![0, 0, 1, 0, 0, 0]

/-- Source `pdyy = [0,0,0,0,0,2]`. -/
def pdyy : Fin 6 → ℝ := ![0, 0, 0, 0, 0, 2]

/-! ## Local polynomial basis matrix (source: `p_`) -/

/-- Source `p_`: rows `[1, x-x0, y-y0, (x-x0)^2, (x-x0)(y-y0), (y-y0)^2]`
where `(x0, y0) = nsd[0]` and column `j` is neighbor `j`. -/
def p_ {kk : ℕ} [NeZero kk] (nsd : Fin kk → ℝ × ℝ) : Matrix (Fin 6) (Fin kk) ℝ :=
  Matrix.of ![
    fun _ => (1 : ℝ),
    fun j => (nsd j).1 - (nsd 0).1,
    fun j => (nsd j).2 - (nsd 0).2,
    fun j => ((nsd j).1 - (nsd 0).1) ^ 2,
    fun j => ((nsd j).1 - (nsd 0).1) * ((nsd j).2 - (nsd 0).2),
    fun j => ((nsd j).2 - (nsd 0).2) ^ 2]

/-! ## Gaussian weight kernel and its derivatives (source: `Dn, Dx, Dxx, Dy, Dyy`) -/

/-- Source `Dn = np.exp(-((distances[i,:]) / a0[i]) ** 2)`. -/
noncomputable def Dn {kk : ℕ} (dist : Fin kk → ℝ) (a0 : ℝ) : Fin kk → ℝ :=
  fun j => Real.exp (-(dist j / a0) ^ 2)

/-- Source `Dx = (-2 / a0**2) * (nsd[0,0] - nsd[:,0]) * Dn`. -/
noncomputable def Dx {kk : ℕ} [NeZero kk] (nsd : Fin kk → ℝ × ℝ) (dist : Fin kk → ℝ)
    (a0 : ℝ) : Fin kk → ℝ :=
  fun j => (-2 / a0 ^ 2) * ((nsd 0).1 - (nsd j).1) * Dn dist a0 j

/-- Source `Dxx = (-2 / a0**4) * (a0**2 - 2 * (nsd[0,0] - nsd[:,0])**2) * Dn`. -/
noncomputable def Dxx {kk : ℕ} [NeZero kk] (nsd : Fin kk → ℝ × ℝ) (dist : Fin kk → ℝ)
    (a0 : ℝ) : Fin kk → ℝ :=
  fun j => (-2 / a0 ^ 4) * (a0 ^ 2 - 2 * ((nsd 0).1 - (nsd j).1) ^ 2) * Dn dist a0 j

/-- Source `Dy = (-2 / a0**2) * (nsd[0,1] - nsd[:,1]) * Dn`. -/
noncomputable def Dy {kk : ℕ} [NeZero kk] (nsd : Fin kk → ℝ × ℝ) (dist : Fin kk → ℝ)
    (a0 : ℝ) : Fin kk → ℝ :=
  fun j => (-2 / a0 ^ 2) * ((nsd 0).2 - (nsd j).2) * Dn dist a0 j

/-- Source `Dyy = (-2 / a0**4) * (a0**2 - 2 * (nsd[0,1] - nsd[:,1])**2) * Dn`. -/
noncomputable def Dyy {kk : ℕ} [NeZero kk] (nsd : Fin kk → ℝ × ℝ) (dist : Fin kk → ℝ)
    (a0 : ℝ) : Fin kk → ℝ :=
  fun j => (-2 / a0 ^ 4) * (a0 ^ 2 - 2 * ((nsd 0).2 - (nsd j).2) ^ 2) * Dn dist a0 j

/-! ## Moment matrix and weighted basis matrix (source: `A, Ax, Axx, Ay, Ayy`,
`B, Bx, Bxx, By, Byy`) -/

/-- Source `A = p_.dot(np.diag(Dn).dot(p_.T))`. -/
noncomputable def A {kk : ℕ} [NeZero kk] (nsd : Fin kk → ℝ × ℝ) (dist : Fin kk → ℝ)
    (a0 : ℝ) : Matrix (Fin 6) (Fin 6) ℝ :=
  p_ nsd * (Matrix.diagonal (Dn dist a0) * (p_ nsd)ᵀ)

/-- Source `Ax = p_.dot(np.diag(Dx).dot(p_.T))`. -/
noncomputable def Ax {kk : ℕ} [NeZero kk] (nsd : Fin kk → ℝ × ℝ) (dist : Fin kk → ℝ)
    (a0 : ℝ) : Matrix (Fin 6) (Fin 6) ℝ :=
  p_ nsd * (Matrix.diagonal (Dx nsd dist a0) * (p_ nsd)ᵀ)

/-- Source `Axx = p_.dot(np.diag(Dxx).dot(p_.T))`. -/
noncomputable def Axx {kk : ℕ} [NeZero kk] (nsd : Fin kk → ℝ × ℝ) (dist : Fin kk → ℝ)
    (a0 : ℝ) : Matrix (Fin 6) (Fin 6) ℝ :=
  p_ nsd * (Matrix.diagonal (Dxx nsd dist a0) * (p_ nsd)ᵀ)

/-- Source `Ay = p_.dot(np.diag(Dy).dot(p_.T))`. -/
noncomputable def Ay {kk : ℕ} [NeZero kk] (nsd : Fin kk → ℝ × ℝ) (dist : Fin kk → ℝ)
    (a0 : ℝ) : Matrix (Fin 6) (Fin 6) ℝ :=
  p_ nsd * (Matrix.diagonal (Dy nsd dist a0) * (p_ nsd)ᵀ)

/-- Source `Ayy = p_.dot(np.diag(Dyy).dot(p_.T))`. -/
noncomputable def Ayy {kk : ℕ} [NeZero kk] (nsd : Fin kk → ℝ × ℝ) (dist : Fin kk → ℝ)
    (a0 : ℝ) : Matrix (Fin 6) (Fin 6) ℝ :=
  p_ nsd * (Matrix.diagonal (Dyy nsd dist a0) * (p_ nsd)ᵀ)

/-- Source `B = np.diag(Dn).dot(p_.T)`. -/
noncomputable def B {kk : ℕ} [NeZero kk] (nsd : Fin kk → ℝ × ℝ) (dist : Fin kk → ℝ)
    (a0 : ℝ) : Matrix (Fin kk) (Fin 6) ℝ :=
  Matrix.diagonal (Dn dist a0) * (p_ nsd)ᵀ

/-- Source `Bx = np.diag(Dx).dot(p_.T)`. -/
noncomputable def Bx {kk : ℕ} [NeZero kk] (nsd : Fin kk → ℝ × ℝ) (dist : Fin kk → ℝ)
    (a0 : ℝ) : Matrix (Fin kk) (Fin 6) ℝ :=
  Matrix.diagonal (Dx nsd dist a0) * (p_ nsd)ᵀ

/-- Source `Bxx = np.diag(Dxx).dot(p_.T)`. -/
noncomputable def Bxx {kk : ℕ} [NeZero kk] (nsd : Fin kk → ℝ × ℝ) (dist : Fin kk → ℝ)
    (a0 : ℝ) : Matrix (Fin kk) (Fin 6) ℝ :=
  Matrix.diagonal (Dxx nsd dist a0) * (p_ nsd)ᵀ

/-- Source `By = np.diag(Dy).dot(p_.T)`. -/
noncomputable def By {kk : ℕ} [NeZero kk] (nsd : Fin kk → ℝ × ℝ) (dist : Fin kk → ℝ)
    (a0 : ℝ) : Matrix (Fin kk) (Fin 6) ℝ :=
  Matrix.diagonal (Dy nsd dist a0) * (p_ nsd)ᵀ

/-- Source `Byy = np.diag(Dyy).dot(p_.T)`. -/
noncomputable def Byy {kk : ℕ} [NeZero kk] (nsd : Fin kk → ℝ × ℝ) (dist : Fin kk → ℝ)
    (a0 : ℝ) : Matrix (Fin kk) (Fin 6) ℝ :=
  Matrix.diagonal (Dyy nsd dist a0) * (p_ nsd)ᵀ

/-! ## Derivatives of the inverse moment matrix (source: `IAx, IAxx, IAy, IAyy`);
`IA` itself is `pinv(A)` and enters as a parameter. -/

/-- Source `IAx = -IA.dot(Ax).dot(IA)`. -/
noncomputable def IAx {kk : ℕ} [NeZero kk] (nsd : Fin kk → ℝ × ℝ) (dist : Fin kk → ℝ)
    (a0 : ℝ) (IA : Matrix (Fin 6) (Fin 6) ℝ) : Matrix (Fin 6) (Fin 6) ℝ :=
  -(IA * Ax nsd dist a0 * IA)

/-- Source `IAxx = -IAx.dot(Ax).dot(IA) - IA.dot(Axx).dot(IA) - IA.dot(Ax).dot(IAx)`. -/
noncomputable def IAxx {kk : ℕ} [NeZero kk] (nsd : Fin kk → ℝ × ℝ) (dist : Fin kk → ℝ)
    (a0 : ℝ) (IA : Matrix (Fin 6) (Fin 6) ℝ) : Matrix (Fin 6) (Fin 6) ℝ :=
  -(IAx nsd dist a0 IA * Ax nsd dist a0 * IA) - IA * Axx nsd dist a0 * IA
    - IA * Ax nsd dist a0 * IAx nsd dist a0 IA

/-- Source `IAy = -IA.dot(Ay).dot(IA)`. -/
noncomputable def IAy {kk : ℕ} [NeZero kk] (nsd : Fin kk → ℝ × ℝ) (dist : Fin kk → ℝ)
    (a0 : ℝ) (IA : Matrix (Fin 6) (Fin 6) ℝ) : Matrix (Fin 6) (Fin 6) ℝ :=
  -(IA * Ay nsd dist a0 * IA)

/-- Source `IAyy = -IAy.dot(Ay).dot(IA) - IA.dot(Ayy).dot(IA) - IA.dot(Ay).dot(IAy)`. -/
noncomputable def IAyy {kk : ℕ} [NeZero kk] (nsd : Fin kk → ℝ × ℝ) (dist : Fin kk → ℝ)
    (a0 : ℝ) (IA : Matrix (Fin 6) (Fin 6) ℝ) : Matrix (Fin 6) (Fin 6) ℝ :=
  -(IAy nsd dist a0 IA * Ay nsd dist a0 * IA) - IA * Ayy nsd dist a0 * IA
    - IA * Ay nsd dist a0 * IAy nsd dist a0 IA

/-! ## Shape-function rows (source: the `sf_list / sfx_list / sfy_list /
sfxx_list / sfyy_list` appends; `.T` / `ravel` only flatten the 1×k row) -/

/-- Source `w_.dot(IA).dot(B.T)`. -/
noncomputable def sf {kk : ℕ} [NeZero kk] (nsd : Fin kk → ℝ × ℝ) (dist : Fin kk → ℝ)
    (a0 : ℝ) (IA : Matrix (Fin 6) (Fin 6) ℝ) : Fin kk → ℝ :=
  Matrix.vecMul (Matrix.vecMul w IA) (B nsd dist a0)ᵀ

/-- Source `(pdx_.dot(IA) + w_.dot(IAx)).dot(B.T) + w_.dot(IA).dot(Bx.T)`. -/
noncomputable def sfx {kk : ℕ} [NeZero kk] (nsd : Fin kk → ℝ × ℝ) (dist : Fin kk → ℝ)
    (a0 : ℝ) (IA : Matrix (Fin 6) (Fin 6) ℝ) : Fin kk → ℝ :=
  Matrix.vecMul (Matrix.vecMul pdx IA + Matrix.vecMul w (IAx nsd dist a0 IA))
      (B nsd dist a0)ᵀ
    + Matrix.vecMul (Matrix.vecMul w IA) (Bx nsd dist a0)ᵀ

/-- Source `(pdy_.dot(IA) + w_.dot(IAy)).dot(B.T) + w_.dot(IA).dot(By.T)`. -/
noncomputable def sfy {kk : ℕ} [NeZero kk] (nsd : Fin kk → ℝ × ℝ) (dist : Fin kk → ℝ)
    (a0 : ℝ) (IA : Matrix (Fin 6) (Fin 6) ℝ) : Fin kk → ℝ :=
  Matrix.vecMul (Matrix.vecMul pdy IA + Matrix.vecMul w (IAy nsd dist a0 IA))
      (B nsd dist a0)ᵀ
    + Matrix.vecMul (Matrix.vecMul w IA) (By nsd dist a0)ᵀ

/-- Source `(pdxx_.dot(IA) + 2*pdx_.dot(IAx) + w_.dot(IAxx)).dot(B.T)
+ (w_.dot(IAx) + 2*pdx_.dot(IA) + w_.dot(IAx)).dot(Bx.T) + w_.dot(IA).dot(Bxx.T)`;
note the coefficient of `Bx.T` carries `w_.dot(IAx)` twice, exactly as written. -/
noncomputable def sfxx {kk : ℕ} [NeZero kk] (nsd : Fin kk → ℝ × ℝ) (dist : Fin kk → ℝ)
    (a0 : ℝ) (IA : Matrix (Fin 6) (Fin 6) ℝ) : Fin kk → ℝ :=
  Matrix.vecMul (Matrix.vecMul pdxx IA + (2 : ℝ) • Matrix.vecMul pdx (IAx nsd dist a0 IA)
      + Matrix.vecMul w (IAxx nsd dist a0 IA)) (B nsd dist a0)ᵀ
    + Matrix.vecMul (Matrix.vecMul w (IAx nsd dist a0 IA) + (2 : ℝ) • Matrix.vecMul pdx IA
      + Matrix.vecMul w (IAx nsd dist a0 IA)) (Bx nsd dist a0)ᵀ
    + Matrix.vecMul (Matrix.vecMul w IA) (Bxx nsd dist a0)ᵀ

/-- Source `((pdyy_.dot(IA)) + 2*pdy_.dot(IAy) + w_.dot(IAyy)).dot(B.T)
+ (w_.dot(IAy) + 2*pdy_.dot(IA) + w_.dot(IAy)).dot(By.T) + w_.dot(IA).dot(Byy.T)`. -/
noncomputable def sfyy {kk : ℕ} [NeZero kk] (nsd : Fin kk → ℝ × ℝ) (dist : Fin kk → ℝ)
    (a0 : ℝ) (IA : Matrix (Fin 6) (Fin 6) ℝ) : Fin kk → ℝ :=
  Matrix.vecMul (Matrix.vecMul pdyy IA + (2 : ℝ) • Matrix.vecMul pdy (IAy nsd dist a0 IA)
      + Matrix.vecMul w (IAyy nsd dist a0 IA)) (B nsd dist a0)ᵀ
    + Matrix.vecMul (Matrix.vecMul w (IAy nsd dist a0 IA) + (2 : ℝ) • Matrix.vecMul pdy IA
      + Matrix.vecMul w (IAy nsd dist a0 IA)) (By nsd dist a0)ᵀ
    + Matrix.vecMul (Matrix.vecMul w IA) (Byy nsd dist a0)ᵀ

/-! ## Global setup: neighbor query, support radius, sparse assembly -/

/-- Euclidean distance between two 2D points, as returned by the
ball-tree neighbor query. -/
noncomputable def edist (p q : ℝ × ℝ) : ℝ :=
  Real.sqrt ((p.1 - q.1) ^ 2 + (p.2 - q.2) ^ 2)

/-- Source `nsd = distnod[indices[i, :]]`: the neighbor coordinates of point `i`. -/
def nsdOf {N kk : ℕ} (nodes : Fin N → ℝ × ℝ) (indices : Fin N → Fin kk → Fin N)
    (i : Fin N) : Fin kk → ℝ × ℝ :=
  fun j => nodes (indices i j)

instance : NeZero (30 : ℕ) := ⟨by norm_num⟩

/-- Source `a1 = distances[:, 29]`: distance to the 30th nearest neighbor. -/
def a1 {N : ℕ} (distances : Fin N → Fin 30 → ℝ) : Fin N → ℝ :=
  fun i => distances i 29

/-- Source `a0 = 0.3 * a1`: the support radius of each point. -/
def a0sup {N : ℕ} (distances : Fin N → Fin 30 → ℝ) : Fin N → ℝ :=
  fun i => 0.3 * a1 distances i

/-- Semantics of `sp.sparse.csc_matrix((data, (i_list, sdi_list)), shape=(N, N))`
for the triplets produced by the loop: row `r` contributes exactly the `k`
triplets `(r, indices[r, j], vals[r, j])`, and entries landing on the same
`(row, col)` pair are summed. -/
noncomputable def cscAssemble {N : ℕ} (indices : Fin N → Fin 30 → Fin N)
    (vals : Fin N → Fin 30 → ℝ) : Matrix (Fin N) (Fin N) ℝ :=
  Matrix.of fun r c => ∑ j : Fin 30, if indices r j = c then vals r j else 0

/-- The per-point value row fed into operator `sf` for point `i`. -/
noncomputable def sfRow {N : ℕ} (nodes : Fin N → ℝ × ℝ) (indices : Fin N → Fin 30 → Fin N)
    (distances : Fin N → Fin 30 → ℝ) (IAs : Fin N → Matrix (Fin 6) (Fin 6) ℝ) :
    Fin N → Fin 30 → ℝ :=
  fun i => sf (nsdOf nodes indices i) (fun j => distances i j) (a0sup distances i) (IAs i)

/-- The per-point value row for operator `sfx`. -/
noncomputable def sfxRow {N : ℕ} (nodes : Fin N → ℝ × ℝ) (indices : Fin N → Fin 30 → Fin N)
    (distances : Fin N → Fin 30 → ℝ) (IAs : Fin N → Matrix (Fin 6) (Fin 6) ℝ) :
    Fin N → Fin 30 → ℝ :=
  fun i => sfx (nsdOf nodes indices i) (fun j => distances i j) (a0sup distances i) (IAs i)

/-- The per-point value row for operator `sfy`. -/
noncomputable def sfyRow {N : ℕ} (nodes : Fin N → ℝ × ℝ) (indices : Fin N → Fin 30 → Fin N)
    (distances : Fin N → Fin 30 → ℝ) (IAs : Fin N → Matrix (Fin 6) (Fin 6) ℝ) :
    Fin N → Fin 30 → ℝ :=
  fun i => sfy (nsdOf nodes indices i) (fun j => distances i j) (a0sup distances i) (IAs i)

/-- The per-point value row for operator `sfxx`. -/
noncomputable def sfxxRow {N : ℕ} (nodes : Fin N → ℝ × ℝ) (indices : Fin N → Fin 30 → Fin N)
    (distances : Fin N → Fin 30 → ℝ) (IAs : Fin N → Matrix (Fin 6) (Fin 6) ℝ) :
    Fin N → Fin 30 → ℝ :=
  fun i => sfxx (nsdOf nodes indices i) (fun j => distances i j) (a0sup distances i) (IAs i)

/-- The per-point value row for operator `sfyy`. -/
noncomputable def sfyyRow {N : ℕ} (nodes : Fin N → ℝ × ℝ) (indices : Fin N → Fin 30 → Fin N)
    (distances : Fin N → Fin 30 → ℝ) (IAs : Fin N → Matrix (Fin 6) (Fin 6) ℝ) :
    Fin N → Fin 30 → ℝ :=
  fun i => sfyy (nsdOf nodes indices i) (fun j => distances i j) (a0sup distances i) (IAs i)

/-- Source `sf = sp.sparse.csc_matrix((sf_list, (i_list, sdi_list)), ...)`. -/
noncomputable def sfOp {N : ℕ} (nodes : Fin N → ℝ × ℝ) (indices : Fin N → Fin 30 → Fin N)
    (distances : Fin N → Fin 30 → ℝ) (IAs : Fin N → Matrix (Fin 6) (Fin 6) ℝ) :
    Matrix (Fin N) (Fin N) ℝ :=
  cscAssemble indices (sfRow nodes indices distances IAs)

/-- Source `sfx = sp.sparse.csc_matrix((sfx_list, (i_list, sdi_list)), ...)`. -/
noncomputable def sfxOp {N : ℕ} (nodes : Fin N → ℝ × ℝ) (indices : Fin N → Fin 30 → Fin N)
    (distances : Fin N → Fin 30 → ℝ) (IAs : Fin N → Matrix (Fin 6) (Fin 6) ℝ) :
    Matrix (Fin N) (Fin N) ℝ :=
  cscAssemble indices (sfxRow nodes indices distances IAs)

/-- Source `sfy = sp.sparse.csc_matrix((sfy_list, (i_list, sdi_list)), ...)`. -/
noncomputable def sfyOp {N : ℕ} (nodes : Fin N → ℝ × ℝ) (indices : Fin N → Fin 30 → Fin N)
    (distances : Fin N → Fin 30 → ℝ) (IAs : Fin N → Matrix (Fin 6) (Fin 6) ℝ) :
    Matrix (Fin N) (Fin N) ℝ :=
  cscAssemble indices (sfyRow nodes indices distances IAs)

/-- Source `sfxx = sp.sparse.csc_matrix((sfxx_list, (i_list, sdi_list)), ...)`. -/
noncomputable def sfxxOp {N : ℕ} (nodes : Fin N → ℝ × ℝ) (indices : Fin N → Fin 30 → Fin N)
    (distances : Fin N → Fin 30 → ℝ) (IAs : Fin N → Matrix (Fin 6) (Fin 6) ℝ) :
    Matrix (Fin N) (Fin N) ℝ :=
  cscAssemble indices (sfxxRow nodes indices distances IAs)

/-- Source `sfyy = sp.sparse.csc_matrix((sfyy_list, (i_list, sdi_list)), ...)`. -/
noncomputable def sfyyOp {N : ℕ} (nodes : Fin N → ℝ × ℝ) (indices : Fin N → Fin 30 → Fin N)
    (distances : Fin N → Fin 30 → ℝ) (IAs : Fin N → Matrix (Fin 6) (Fin 6) ℝ) :
    Matrix (Fin N) (Fin N) ℝ :=
  cscAssemble indices (sfyyRow nodes indices distances IAs)

/-- Stored entries of row `r` after duplicate `(row, col)` pairs are summed:
the set of distinct columns hit by the row's `k` triplets. -/
def storedCols {N : ℕ} (indices : Fin N → Fin 30 → Fin N) (r : Fin N) : Finset (Fin N) :=
  Finset.image (indices r) Finset.univ

/-- The claimed row structure of an assembled operator: every nonzero entry of
row `r` sits at a stored neighbor column, each entry is the sum of the row's
values over the triplets that hit that column (duplicate columns summed), and
the row has at most `k = 30` nonzero entries. -/
def rowPattern {N : ℕ} (indices : Fin N → Fin 30 → Fin N) (vals : Fin N → Fin 30 → ℝ)
    (M : Matrix (Fin N) (Fin N) ℝ) : Prop :=
  ∀ r : Fin N,
    (∀ c, M r c ≠ 0 → c ∈ storedCols indices r) ∧
    (∀ c, M r c = ∑ j in Finset.univ.filter (fun j => indices r j = c), vals r j) ∧
    (Finset.univ.filter (fun c => M r c ≠ 0)).card ≤ 30

/-! ## Error model for the neighbor query -/

/-- Structural errors surfaced by the pipeline. -/
inductive MLSError where
  | insufficientPoints
deriving DecidableEq

/-- Modelled from the spec: the guard of `NearestNeighbors.kneighbors`
(scikit-learn, external to this repository) — the query fails with
`InsufficientPoints` when the cloud has fewer than `k` points. -/
def kneighborsGuard (N kk : ℕ) : Except MLSError Unit :=
  if N < kk then Except.error MLSError.insufficientPoints else Except.ok ()

/-- Modelled from the spec: the orchestrator runs the neighbor query (with
`k = 30`) before the per-point loop, so the guard fires before any per-point
shape-function work (`work`) is performed. -/
def runPipeline {α : Type} (N : ℕ) (work : Unit → α) : Except MLSError α :=
  Except.map (fun u => work u) (kneighborsGuard N 30)

/-! ## IEEE-style value domain for the division-by-zero analysis

The weight computation divides by `a0**2` and `a0**4` with no guard.  numpy
does not raise on division by zero: it produces `±inf` or `nan` and keeps
going.  `FloatV` models double values at the granularity the claim needs:
a finite real, the two infinities, or NaN. -/

/-- A numpy double at the finite / ±∞ / NaN granularity. -/
inductive FloatV where
  | fin : ℝ → FloatV
  | posInf : FloatV
  | negInf : FloatV
  | nan : FloatV

namespace FloatV

/-- IEEE negation. -/
def fneg : FloatV → FloatV
  | .fin x => .fin (-x)
  | .posInf => .negInf
  | .negInf => .posInf
  | .nan => .nan

/-- IEEE subtraction (`∞ − ∞ = NaN`, NaN propagates). -/
def fsub : FloatV → FloatV → FloatV
  | .fin x, .fin y => .fin (x - y)
  | .fin _, .posInf => .negInf
  | .fin _, .negInf => .posInf
  | .posInf, .fin _ => .posInf
  | .negInf, .fin _ => .negInf
  | .posInf, .negInf => .posInf
  | .negInf, .posInf => .negInf
  | _, _ => .nan

/-- IEEE multiplication (`±∞ · 0 = NaN`, NaN propagates). -/
noncomputable def fmul : FloatV → FloatV → FloatV
  | .fin x, .fin y => .fin (x * y)
  | .fin x, .posInf => if 0 < x then .posInf else if x < 0 then .negInf else .nan
  | .fin x, .negInf => if 0 < x then .negInf else if x < 0 then .posInf else .nan
  | .posInf, .fin y => if 0 < y then .posInf else if y < 0 then .negInf else .nan
  | .negInf, .fin y => if 0 < y then .negInf else if y < 0 then .posInf else .nan
  | .posInf, .posInf => .posInf
  | .posInf, .negInf => .negInf
  | .negInf, .posInf => .negInf
  | .negInf, .negInf => .posInf
  | _, _ => .nan

/-- IEEE division (`x/0 = ±∞` for `x ≠ 0`, `0/0 = NaN`, `∞/∞ = NaN`,
NaN propagates; the reals carry no signed zero, so `y = 0` is treated as `+0`). -/
noncomputable def fdiv : FloatV → FloatV → FloatV
  | .fin x, .fin y =>
      if y = 0 then (if x = 0 then .nan else if 0 < x then .posInf else .negInf)
      else .fin (x / y)
  | .fin _, .posInf => .fin 0
  | .fin _, .negInf => .fin 0
  | .posInf, .fin y => if 0 ≤ y then .posInf else .negInf
  | .negInf, .fin y => if 0 ≤ y then .negInf else .posInf
  | _, _ => .nan

/-- IEEE squaring, i.e. `** 2` (`(±∞)² = +∞`, NaN propagates). -/
noncomputable def fsq (v : FloatV) : FloatV := fmul v v

/-- IEEE exponential (`exp(−∞) = 0`, `exp(+∞) = +∞`, NaN propagates). -/
noncomputable def fexp : FloatV → FloatV
  | .fin x => .fin (Real.exp x)
  | .posInf => .posInf
  | .negInf => .fin 0
  | .nan => .nan

end FloatV

/-- Source `Dn = np.exp(-((d) / a0) ** 2)` in float semantics, per entry. -/
noncomputable def DnF (d a0f : FloatV) : FloatV :=
  FloatV.fexp (FloatV.fneg (FloatV.fsq (FloatV.fdiv d a0f)))

/-- Source `Dx = (-2 / a0**2) * (x0 - x) * Dn` in float semantics; the
coordinates `x0, x` are finite input doubles. -/
noncomputable def DxF (x0 x : ℝ) (d a0f : FloatV) : FloatV :=
  FloatV.fmul
    (FloatV.fmul (FloatV.fdiv (.fin (-2)) (FloatV.fsq a0f))
      (FloatV.fsub (.fin x0) (.fin x)))
    (DnF d a0f)

/-- Source `Dxx = (-2 / a0**4) * (a0**2 - 2 * (x0 - x)**2) * Dn` in float
semantics (`a0**4` computed as the square of the square). -/
noncomputable def DxxF (x0 x : ℝ) (d a0f : FloatV) : FloatV :=
  FloatV.fmul
    (FloatV.fmul (FloatV.fdiv (.fin (-2)) (FloatV.fsq (FloatV.fsq a0f)))
      (FloatV.fsub (FloatV.fsq a0f)
        (FloatV.fmul (.fin 2) (FloatV.fsq (FloatV.fsub (.fin x0) (.fin x))))))
    (DnF d a0f)

/-- Source `Dy`, float semantics; identical to `DxF` in the y-coordinate. -/
noncomputable def DyF (y0 y : ℝ) (d a0f : FloatV) : FloatV := DxF y0 y d a0f

/-- Source `Dyy`, float semantics; identical to `DxxF` in the y-coordinate. -/
noncomputable def DyyF (y0 y : ℝ) (d a0f : FloatV) : FloatV := DxxF y0 y d a0f

/-! ## Concrete witness data

Six neighbors whose basis matrix is invertible, all at recorded distance 0
with support radius 1, so every Gaussian weight is `exp(0) = 1` and the
moment matrix is the exact Gram matrix computed below, with its exact
inverse `IAW`. -/

/-- Witness neighbor coordinates: `(0,0), (1,0), (-1,0), (0,1), (0,-1), (1,1)`. -/
def nsdW : Fin 6 → ℝ × ℝ :=
  ![(0, 0), (1, 0), (-1, 0), (0, 1), (0, -1), (1, 1)]

/-- Witness distances: all zero. -/
def distW : Fin 6 → ℝ := fun _ => 0

/-- The exact moment matrix of the witness configuration. -/
def AWmat : Matrix (Fin 6) (Fin 6) ℝ :=
  Matrix.of ![
    ![6, 1, 1, 3, 1, 3],
    ![1, 3, 1, 1, 1, 1],
    ![1, 1, 3, 1, 1, 1],
    ![3, 1, 1, 3, 1, 1],
    ![1, 1, 1, 1, 1, 1],
    ![3, 1, 1, 1, 1, 3]]

/-- The exact inverse of `AWmat`. -/
noncomputable def IAW : Matrix (Fin 6) (Fin 6) ℝ :=
  Matrix.of ![
    ![1, 0, 0, -1, 1, -1],
    ![0, 1/2, 0, 0, -1/2, 0],
    ![0, 0, 1/2, 0, -1/2, 0],
    ![-1, 0, 0, 3/2, -3/2, 1],
    ![1, -1/2, -1/2, -3/2, 4, -3/2],
    ![-1, 0, 0, 1, -3/2, 3/2]]

/-! ## Theorems -/

/-- C2: for every point, the derivatives of the inverse moment matrix are
propagated exactly by `IAx = −IA·Ax·IA`,
`IAxx = −IAx·Ax·IA − IA·Axx·IA − IA·Ax·IAx`, and the analogous `IAy`, `IAyy`
identities, where `IA` is the matrix produced by the (pseudo-)inversion. -/
theorem inverse_derivative_propagation {kk : ℕ} [NeZero kk] (nsd : Fin kk → ℝ × ℝ)
    (dist : Fin kk → ℝ) (a0 : ℝ) (IA : Matrix (Fin 6) (Fin 6) ℝ) :
    IAx nsd dist a0 IA = -(IA * Ax nsd dist a0 * IA) ∧
    IAxx nsd dist a0 IA =
      -(IAx nsd dist a0 IA * Ax nsd dist a0 * IA) - IA * Axx nsd dist a0 * IA
        - IA * Ax nsd dist a0 * IAx nsd dist a0 IA ∧
    IAy nsd dist a0 IA = -(IA * Ay nsd dist a0 * IA) ∧
    IAyy nsd dist a0 IA =
      -(IAy nsd dist a0 IA * Ay nsd dist a0 * IA) - IA * Ayy nsd dist a0 * IA
        - IA * Ay nsd dist a0 * IAy nsd dist a0 IA :=
  ⟨rfl, rfl, rfl, rfl⟩

/-- C3: the xx-derivative row equals the literal expansion
`(pdxxᵗ·IA + 2·pdxᵗ·IAx + wᵗ·IAxx)·Bᵗ + (wᵗ·IAx + 2·pdxᵗ·IA + wᵗ·IAx)·Bxᵗ
+ wᵗ·IA·Bxxᵗ`, in which the contribution `wᵗ·IAx` appears twice in the
coefficient multiplying `Bxᵗ`, and the yy-derivative row is the analogous
expansion with `pdyy`, `IAy`, `IAyy`, `By`, `Byy`. -/
theorem second_derivative_rows_literal {kk : ℕ} [NeZero kk] (nsd : Fin kk → ℝ × ℝ)
    (dist : Fin kk → ℝ) (a0 : ℝ) (IA : Matrix (Fin 6) (Fin 6) ℝ) :
    sfxx nsd dist a0 IA =
      Matrix.vecMul (Matrix.vecMul pdxx IA + (2 : ℝ) • Matrix.vecMul pdx (IAx nsd dist a0 IA)
          + Matrix.vecMul w (IAxx nsd dist a0 IA)) (B nsd dist a0)ᵀ
        + Matrix.vecMul (Matrix.vecMul w (IAx nsd dist a0 IA)
          + (2 : ℝ) • Matrix.vecMul pdx IA
          + Matrix.vecMul w (IAx nsd dist a0 IA)) (Bx nsd dist a0)ᵀ
        + Matrix.vecMul (Matrix.vecMul w IA) (Bxx nsd dist a0)ᵀ ∧
    sfyy nsd dist a0 IA =
      Matrix.vecMul (Matrix.vecMul pdyy IA + (2 : ℝ) • Matrix.vecMul pdy (IAy nsd dist a0 IA)
          + Matrix.vecMul w (IAyy nsd dist a0 IA)) (B nsd dist a0)ᵀ
        + Matrix.vecMul (Matrix.vecMul w (IAy nsd dist a0 IA)
          + (2 : ℝ) • Matrix.vecMul pdy IA
          + Matrix.vecMul w (IAy nsd dist a0 IA)) (By nsd dist a0)ᵀ
        + Matrix.vecMul (Matrix.vecMul w IA) (Byy nsd dist a0)ᵀ :=
  ⟨rfl, rfl⟩

/-- C2 witness: the propagation identities at the six-neighbor witness
configuration with `IA = IAW`. -/
theorem inverse_derivative_propagation_witness :
    IAx nsdW distW 1 IAW = -(IAW * Ax nsdW distW 1 * IAW) ∧
    IAxx nsdW distW 1 IAW =
      -(IAx nsdW distW 1 IAW * Ax nsdW distW 1 * IAW) - IAW * Axx nsdW distW 1 * IAW
        - IAW * Ax nsdW distW 1 * IAx nsdW distW 1 IAW ∧
    IAy nsdW distW 1 IAW = -(IAW * Ay nsdW distW 1 * IAW) ∧
    IAyy nsdW distW 1 IAW =
      -(IAy nsdW distW 1 IAW * Ay nsdW distW 1 * IAW) - IAW * Ayy nsdW distW 1 * IAW
        - IAW * Ay nsdW distW 1 * IAy nsdW distW 1 IAW :=
  inverse_derivative_propagation nsdW distW 1 IAW

/-- C3 witness: the literal second-derivative expansions at the six-neighbor
witness configuration with `IA = IAW`. -/
theorem second_derivative_rows_literal_witness :
    sfxx nsdW distW 1 IAW =
      Matrix.vecMul (Matrix.vecMul pdxx IAW + (2 : ℝ) • Matrix.vecMul pdx (IAx nsdW distW 1 IAW)
          + Matrix.vecMul w (IAxx nsdW distW 1 IAW)) (B nsdW distW 1)ᵀ
        + Matrix.vecMul (Matrix.vecMul w (IAx nsdW distW 1 IAW)
          + (2 : ℝ) • Matrix.vecMul pdx IAW
          + Matrix.vecMul w (IAx nsdW distW 1 IAW)) (Bx nsdW distW 1)ᵀ
        + Matrix.vecMul (Matrix.vecMul w IAW) (Bxx nsdW distW 1)ᵀ ∧
    sfyy nsdW distW 1 IAW =
      Matrix.vecMul (Matrix.vecMul pdyy IAW + (2 : ℝ) • Matrix.vecMul pdy (IAy nsdW distW 1 IAW)
          + Matrix.vecMul w (IAyy nsdW distW 1 IAW)) (B nsdW distW 1)ᵀ
        + Matrix.vecMul (Matrix.vecMul w (IAy nsdW distW 1 IAW)
          + (2 : ℝ) • Matrix.vecMul pdy IAW
          + Matrix.vecMul w (IAy nsdW distW 1 IAW)) (By nsdW distW 1)ᵀ
        + Matrix.vecMul (Matrix.vecMul w IAW) (Byy nsdW distW 1)ᵀ :=
  second_derivative_rows_literal nsdW distW 1 IAW

/-- C4: for every neighbor at distance `dist j` of the evaluation point with
support radius `a0 > 0`, the kernel values follow the stated closed forms, and
at zero distance (the self point) they are exactly `Dn = 1`, `Dx = 0`,
`Dy = 0`, `Dxx = −2/a0²`, `Dyy = −2/a0²`. -/
theorem weight_kernel_formulas {kk : ℕ} [NeZero kk] (nsd : Fin kk → ℝ × ℝ)
    (dist : Fin kk → ℝ) (a0 : ℝ) (j : Fin kk) (ha : 0 < a0) :
    (Dn dist a0 j = Real.exp (-(dist j / a0) ^ 2) ∧
      Dx nsd dist a0 j = -2 / a0 ^ 2 * ((nsd 0).1 - (nsd j).1) * Dn dist a0 j ∧
      Dy nsd dist a0 j = -2 / a0 ^ 2 * ((nsd 0).2 - (nsd j).2) * Dn dist a0 j ∧
      Dxx nsd dist a0 j
        = -2 / a0 ^ 4 * (a0 ^ 2 - 2 * ((nsd 0).1 - (nsd j).1) ^ 2) * Dn dist a0 j ∧
      Dyy nsd dist a0 j
        = -2 / a0 ^ 4 * (a0 ^ 2 - 2 * ((nsd 0).2 - (nsd j).2) ^ 2) * Dn dist a0 j) ∧
    (dist j = 0 → nsd j = nsd 0 →
      Dn dist a0 j = 1 ∧ Dx nsd dist a0 j = 0 ∧ Dy nsd dist a0 j = 0 ∧
      Dxx nsd dist a0 j = -2 / a0 ^ 2 ∧ Dyy nsd dist a0 j = -2 / a0 ^ 2) := by
  refine ⟨⟨rfl, rfl, rfl, rfl, rfl⟩, fun h0 hx => ?_⟩
  have hDn : Dn dist a0 j = 1 := by simp [Dn, h0]
  refine ⟨hDn, ?_, ?_, ?_, ?_⟩
  · simp [Dx, hx]
  · simp [Dy, hx]
  · simp only [Dxx, hx, hDn, sub_self]
    rw [mul_one]
    field_simp
    ring
  · simp only [Dyy, hx, hDn, sub_self]
    rw [mul_one]
    field_simp
    ring

/-- C4 witness: the kernel formulas at a single self neighbor at the origin
with support radius 1. -/
theorem weight_kernel_formulas_witness :
    (0 : ℝ) < 1 ∧
    ((Dn (fun _ : Fin 1 => (0 : ℝ)) 1 0
        = Real.exp (-((fun _ : Fin 1 => (0 : ℝ)) 0 / 1) ^ 2) ∧
      Dx (fun _ : Fin 1 => ((0 : ℝ), (0 : ℝ))) (fun _ => 0) 1 0
        = -2 / (1 : ℝ) ^ 2 * (((fun _ : Fin 1 => ((0 : ℝ), (0 : ℝ))) 0).1
            - ((fun _ : Fin 1 => ((0 : ℝ), (0 : ℝ))) 0).1)
          * Dn (fun _ : Fin 1 => (0 : ℝ)) 1 0 ∧
      Dy (fun _ : Fin 1 => ((0 : ℝ), (0 : ℝ))) (fun _ => 0) 1 0
        = -2 / (1 : ℝ) ^ 2 * (((fun _ : Fin 1 => ((0 : ℝ), (0 : ℝ))) 0).2
            - ((fun _ : Fin 1 => ((0 : ℝ), (0 : ℝ))) 0).2)
          * Dn (fun _ : Fin 1 => (0 : ℝ)) 1 0 ∧
      Dxx (fun _ : Fin 1 => ((0 : ℝ), (0 : ℝ))) (fun _ => 0) 1 0
        = -2 / (1 : ℝ) ^ 4 * ((1 : ℝ) ^ 2 - 2 * (((fun _ : Fin 1 => ((0 : ℝ), (0 : ℝ))) 0).1
            - ((fun _ : Fin 1 => ((0 : ℝ), (0 : ℝ))) 0).1) ^ 2)
          * Dn (fun _ : Fin 1 => (0 : ℝ)) 1 0 ∧
      Dyy (fun _ : Fin 1 => ((0 : ℝ), (0 : ℝ))) (fun _ => 0) 1 0
        = -2 / (1 : ℝ) ^ 4 * ((1 : ℝ) ^ 2 - 2 * (((fun _ : Fin 1 => ((0 : ℝ), (0 : ℝ))) 0).2
            - ((fun _ : Fin 1 => ((0 : ℝ), (0 : ℝ))) 0).2) ^ 2)
          * Dn (fun _ : Fin 1 => (0 : ℝ)) 1 0) ∧
    ((fun _ : Fin 1 => (0 : ℝ)) 0 = 0 →
      (fun _ : Fin 1 => ((0 : ℝ), (0 : ℝ))) 0 = (fun _ : Fin 1 => ((0 : ℝ), (0 : ℝ))) 0 →
      Dn (fun _ : Fin 1 => (0 : ℝ)) 1 0 = 1 ∧
      Dx (fun _ : Fin 1 => ((0 : ℝ), (0 : ℝ))) (fun _ => 0) 1 0 = 0 ∧
      Dy (fun _ : Fin 1 => ((0 : ℝ), (0 : ℝ))) (fun _ => 0) 1 0 = 0 ∧
      Dxx (fun _ : Fin 1 => ((0 : ℝ), (0 : ℝ))) (fun _ => 0) 1 0 = -2 / (1 : ℝ) ^ 2 ∧
      Dyy (fun _ : Fin 1 => ((0 : ℝ), (0 : ℝ))) (fun _ => 0) 1 0 = -2 / (1 : ℝ) ^ 2)) :=
  ⟨by norm_num,
    weight_kernel_formulas (fun _ : Fin 1 => ((0 : ℝ), (0 : ℝ))) (fun _ => 0) 1 0 (by norm_num)⟩

/-- C5 counterexample: at the self point (distance 0, coincident coordinates,
support radius 1) the code yields `Dxx = −2 ≠ 0`, refuting the claim that all
kernel derivatives vanish there. -/
theorem self_point_kernel_cex :
    Dxx (fun _ : Fin 1 => ((0 : ℝ), (0 : ℝ))) (fun _ => 0) 1 0 = -2 ∧ (-2 : ℝ) ≠ 0 := by
  constructor
  · simp [Dxx, Dn]
  · norm_num

/-- C5 (amended): at zero distance the kernel gives exactly `Dn = 1`,
`Dx = Dy = 0`, and `Dxx = Dyy = −2/a0²` (not 0). -/
theorem self_point_kernel {kk : ℕ} [NeZero kk] (nsd : Fin kk → ℝ × ℝ)
    (dist : Fin kk → ℝ) (a0 : ℝ) (j : Fin kk) (ha : 0 < a0) (h0 : dist j = 0)
    (hx : nsd j = nsd 0) :
    Dn dist a0 j = 1 ∧ Dx nsd dist a0 j = 0 ∧ Dy nsd dist a0 j = 0 ∧
    Dxx nsd dist a0 j = -2 / a0 ^ 2 ∧ Dyy nsd dist a0 j = -2 / a0 ^ 2 := by
  have hDn : Dn dist a0 j = 1 := by simp [Dn, h0]
  refine ⟨hDn, ?_, ?_, ?_, ?_⟩
  · simp [Dx, hx]
  · simp [Dy, hx]
  · simp only [Dxx, hx, hDn, sub_self]
    rw [mul_one]
    field_simp
    ring
  · simp only [Dyy, hx, hDn, sub_self]
    rw [mul_one]
    field_simp
    ring

/-- C5 witness: the amended self-point values at a single neighbor at the
origin with support radius 1. -/
theorem self_point_kernel_witness :
    ((0 : ℝ) < 1 ∧ (fun _ : Fin 1 => (0 : ℝ)) 0 = 0) ∧
    (Dn (fun _ : Fin 1 => (0 : ℝ)) 1 0 = 1 ∧
      Dx (fun _ : Fin 1 => ((0 : ℝ), (0 : ℝ))) (fun _ => 0) 1 0 = 0 ∧
      Dy (fun _ : Fin 1 => ((0 : ℝ), (0 : ℝ))) (fun _ => 0) 1 0 = 0 ∧
      Dxx (fun _ : Fin 1 => ((0 : ℝ), (0 : ℝ))) (fun _ => 0) 1 0 = -2 / (1 : ℝ) ^ 2 ∧
      Dyy (fun _ : Fin 1 => ((0 : ℝ), (0 : ℝ))) (fun _ => 0) 1 0 = -2 / (1 : ℝ) ^ 2) :=
  ⟨⟨by norm_num, rfl⟩,
    self_point_kernel (fun _ : Fin 1 => ((0 : ℝ), (0 : ℝ))) (fun _ => 0) 1 0
      (by norm_num) rfl rfl⟩

/-- Evaluation of a six-entry vector literal at index 5. -/
theorem cons_val_five {α : Type} (x : α) (u : Fin 5 → α) : Matrix.vecCons x u 5 = u 4 :=
  rfl

/-- Evaluation of a five-entry vector literal at index 4. -/
theorem cons_val_four' {α : Type} (x : α) (u : Fin 4 → α) : Matrix.vecCons x u 4 = u 3 :=
  rfl

/-- Evaluation of a four-entry vector literal at index 3. -/
theorem cons_val_three' {α : Type} (x : α) (u : Fin 3 → α) : Matrix.vecCons x u 3 = u 2 :=
  rfl

/-- Evaluation of a three-entry vector literal at index 2. -/
theorem cons_val_two' {α : Type} (x : α) (u : Fin 2 → α) : Matrix.vecCons x u 2 = u 1 :=
  rfl

/-- Selecting with `w` picks row 0 of `IA`. -/
theorem vecMul_w (IA : Matrix (Fin 6) (Fin 6) ℝ) (b : Fin 6) :
    Matrix.vecMul w IA b = IA 0 b := by
  simp [Matrix.vecMul, Matrix.dotProduct, w, Fin.sum_univ_succ, Matrix.vecHead,
    Matrix.vecTail]

/-- Row 0 of the basis matrix is the constant row of ones. -/
theorem p_row_zero {kk : ℕ} [NeZero kk] (nsd : Fin kk → ℝ × ℝ) (l : Fin kk) :
    p_ nsd 0 l = 1 := by
  simp [p_]

/-- Column sums of `B` recover column 0 of the moment matrix. -/
theorem sum_B_col {kk : ℕ} [NeZero kk] (nsd : Fin kk → ℝ × ℝ) (dist : Fin kk → ℝ)
    (a0 : ℝ) (b : Fin 6) :
    (∑ j, B nsd dist a0 j b) = A nsd dist a0 b 0 := by
  have hA : A nsd dist a0 b 0 = ∑ l, p_ nsd b l * Dn dist a0 l := by
    simp only [A]
    rw [Matrix.mul_apply]
    refine Finset.sum_congr rfl fun l _ => ?_
    rw [Matrix.diagonal_mul, Matrix.transpose_apply, p_row_zero, mul_one]
  have hB : ∀ j, B nsd dist a0 j b = Dn dist a0 j * p_ nsd b j := by
    intro j
    simp only [B]
    rw [Matrix.diagonal_mul, Matrix.transpose_apply]
  rw [hA]
  simp only [hB]
  exact Finset.sum_congr rfl fun l _ => mul_comm _ _

/-- C1: for every point whose moment matrix is invertible (so that `pinv`
returns a true inverse `IA` with `IA·A = 1`), the `k` entries of the
shape-function row `φ = wᵗ·IA·Bᵗ` sum to 1. -/
theorem partition_of_unity {kk : ℕ} [NeZero kk] (nsd : Fin kk → ℝ × ℝ)
    (dist : Fin kk → ℝ) (a0 : ℝ) (IA : Matrix (Fin 6) (Fin 6) ℝ)
    (hIA : IA * A nsd dist a0 = 1) :
    ∑ j, sf nsd dist a0 IA j = 1 := by
  have step : ∑ j, sf nsd dist a0 IA j
      = ∑ b, Matrix.vecMul w IA b * ∑ j, B nsd dist a0 j b := by
    simp only [sf, Matrix.vecMul, Matrix.dotProduct, Matrix.transpose_apply, Finset.mul_sum]
    exact Finset.sum_comm
  rw [step]
  have step2 : ∑ b, Matrix.vecMul w IA b * ∑ j, B nsd dist a0 j b
      = ∑ b, IA 0 b * A nsd dist a0 b 0 := by
    refine Finset.sum_congr rfl fun b _ => ?_
    rw [vecMul_w, sum_B_col]
  rw [step2]
  have : ∑ b, IA 0 b * A nsd dist a0 b 0 = (IA * A nsd dist a0) 0 0 := by
    rw [Matrix.mul_apply]
  rw [this, hIA]
  simp

set_option maxHeartbeats 1000000 in
/-- The moment matrix of the witness configuration evaluates to `AWmat`. -/
theorem A_witness_eval : A nsdW distW 1 = AWmat := by
  have hDn : Dn distW (1 : ℝ) = fun _ => 1 := by
    funext j; simp [Dn, distW]
  simp only [A, hDn, Matrix.diagonal_one, Matrix.one_mul]
  ext a b
  fin_cases a <;> fin_cases b <;>
    simp [AWmat, p_, nsdW, Matrix.mul_apply, Matrix.transpose_apply, Fin.sum_univ_succ,
      cons_val_five, cons_val_four', cons_val_three', cons_val_two',
      Matrix.vecHead, Matrix.vecTail] <;> norm_num

set_option maxHeartbeats 1000000 in
/-- `IAW` is a left inverse of `AWmat`. -/
theorem IAW_mul_AWmat : IAW * AWmat = 1 := by
  ext a b
  fin_cases a <;> fin_cases b <;>
    simp [IAW, AWmat, Matrix.mul_apply, Matrix.one_apply, Fin.sum_univ_succ,
      cons_val_five, cons_val_four', cons_val_three', cons_val_two',
      Matrix.vecHead, Matrix.vecTail] <;> norm_num

/-- C1 witness: a 6-neighbor configuration with invertible moment matrix, on
which the shape-function row sums to 1. -/
theorem partition_of_unity_witness :
    IAW * A nsdW distW 1 = 1 ∧ ∑ j, sf nsdW distW 1 IAW j = 1 :=
  ⟨by rw [A_witness_eval]; exact IAW_mul_AWmat,
    partition_of_unity nsdW distW 1 IAW (by rw [A_witness_eval]; exact IAW_mul_AWmat)⟩

/-- Two points at Euclidean distance 0 have identical coordinates. -/
theorem eq_of_edist_eq_zero {p q : ℝ × ℝ} (h : edist p q = 0) : p = q := by
  have hs : (p.1 - q.1) ^ 2 + (p.2 - q.2) ^ 2 ≤ 0 := Real.sqrt_eq_zero'.mp h
  have h1 : p.1 - q.1 = 0 := by nlinarith [sq_nonneg (p.1 - q.1), sq_nonneg (p.2 - q.2)]
  have h2 : p.2 - q.2 = 0 := by nlinarith [sq_nonneg (p.1 - q.1), sq_nonneg (p.2 - q.2)]
  exact Prod.ext (by linarith) (by linarith)

/-- C6: under the neighbor-query contract (distances are Euclidean distances
to the listed neighbors, sorted ascending, self included), the local origin
`nsd[0]` carries point `i`'s own coordinates, and the basis matrix built from
it is exactly `[1, Δx, Δy, Δx², ΔxΔy, Δy²]` with `Δ` taken relative to point
`i`'s own coordinates. -/
theorem basis_uses_own_coordinates {N kk : ℕ} [NeZero kk] (nodes : Fin N → ℝ × ℝ)
    (indices : Fin N → Fin kk → Fin N) (distances : Fin N → Fin kk → ℝ)
    (hd : ∀ i j, distances i j = edist (nodes i) (nodes (indices i j)))
    (hmono : ∀ i, Monotone (distances i))
    (hself : ∀ i, ∃ j, indices i j = i) (i : Fin N) :
    nsdOf nodes indices i 0 = nodes i ∧
    p_ (nsdOf nodes indices i) = Matrix.of ![
      fun _ => (1 : ℝ),
      fun j => (nodes (indices i j)).1 - (nodes i).1,
      fun j => (nodes (indices i j)).2 - (nodes i).2,
      fun j => ((nodes (indices i j)).1 - (nodes i).1) ^ 2,
      fun j => ((nodes (indices i j)).1 - (nodes i).1) * ((nodes (indices i j)).2 - (nodes i).2),
      fun j => ((nodes (indices i j)).2 - (nodes i).2) ^ 2] := by
  obtain ⟨j0, hj0⟩ := hself i
  have hd0 : distances i j0 = 0 := by
    rw [hd i j0, hj0, edist]
    simp
  have hle : distances i 0 ≤ distances i j0 := hmono i (Fin.zero_le' j0)
  have hge : 0 ≤ distances i 0 := by
    rw [hd i 0]
    exact Real.sqrt_nonneg _
  have hz : edist (nodes i) (nodes (indices i 0)) = 0 := by
    rw [← hd i 0]
    linarith
  have h0 : nsdOf nodes indices i 0 = nodes i := (eq_of_edist_eq_zero hz).symm
  refine ⟨h0, ?_⟩
  simp only [p_, nsdOf] at h0 ⊢
  rw [h0]

/-- C6 witness: a one-point cloud with the identity neighbor query. -/
theorem basis_uses_own_coordinates_witness :
    nsdOf (fun _ : Fin 1 => ((0 : ℝ), (0 : ℝ))) (fun _ : Fin 1 => fun _ : Fin 1 => (0 : Fin 1)) 0 0
        = (fun _ : Fin 1 => ((0 : ℝ), (0 : ℝ))) 0 ∧
    p_ (nsdOf (fun _ : Fin 1 => ((0 : ℝ), (0 : ℝ))) (fun _ : Fin 1 => fun _ : Fin 1 => (0 : Fin 1)) 0)
      = Matrix.of ![
        fun _ => (1 : ℝ),
        fun j => ((fun _ : Fin 1 => ((0 : ℝ), (0 : ℝ))) ((fun _ : Fin 1 => (0 : Fin 1)) j)).1
          - (((0 : ℝ), (0 : ℝ)) : ℝ × ℝ).1,
        fun j => ((fun _ : Fin 1 => ((0 : ℝ), (0 : ℝ))) ((fun _ : Fin 1 => (0 : Fin 1)) j)).2
          - (((0 : ℝ), (0 : ℝ)) : ℝ × ℝ).2,
        fun j => (((fun _ : Fin 1 => ((0 : ℝ), (0 : ℝ))) ((fun _ : Fin 1 => (0 : Fin 1)) j)).1
          - (((0 : ℝ), (0 : ℝ)) : ℝ × ℝ).1) ^ 2,
        fun j => (((fun _ : Fin 1 => ((0 : ℝ), (0 : ℝ))) ((fun _ : Fin 1 => (0 : Fin 1)) j)).1
            - (((0 : ℝ), (0 : ℝ)) : ℝ × ℝ).1)
          * (((fun _ : Fin 1 => ((0 : ℝ), (0 : ℝ))) ((fun _ : Fin 1 => (0 : Fin 1)) j)).2
            - (((0 : ℝ), (0 : ℝ)) : ℝ × ℝ).2),
        fun j => (((fun _ : Fin 1 => ((0 : ℝ), (0 : ℝ))) ((fun _ : Fin 1 => (0 : Fin 1)) j)).2
          - (((0 : ℝ), (0 : ℝ)) : ℝ × ℝ).2) ^ 2] :=
  basis_uses_own_coordinates (fun _ : Fin 1 => ((0 : ℝ), (0 : ℝ)))
    (fun _ : Fin 1 => fun _ : Fin 1 => (0 : Fin 1)) (fun _ : Fin 1 => fun _ : Fin 1 => (0 : ℝ))
    (fun i j => by simp [edist])
    (fun i => monotone_const)
    (fun i => ⟨0, Subsingleton.elim _ _⟩) 0

/-- C7: the support radius is `a0(i) = 0.3 · d_k(i)` with `d_k(i)` the
Euclidean distance from point `i` to its 30th nearest neighbor (index 29),
and it is positive whenever that distance is positive. -/
theorem support_radius {N : ℕ} (nodes : Fin N → ℝ × ℝ)
    (indices : Fin N → Fin 30 → Fin N) (distances : Fin N → Fin 30 → ℝ)
    (hd : ∀ i j, distances i j = edist (nodes i) (nodes (indices i j))) (i : Fin N) :
    a0sup distances i = 0.3 * edist (nodes i) (nodes (indices i 29)) ∧
    (0 < edist (nodes i) (nodes (indices i 29)) → 0 < a0sup distances i) := by
  constructor
  · rw [a0sup, a1, hd i 29]
  · intro h
    rw [a0sup, a1, hd i 29]
    have h3 : (0 : ℝ) < 0.3 := by norm_num
    exact mul_pos h3 h

/-- C7 witness: a one-point cloud (one distinct coordinate repeated), where
the 30th-neighbor distance is 0 and the support radius is `0.3 · 0`. -/
theorem support_radius_witness :
    a0sup (fun _ : Fin 1 => fun _ : Fin 30 => (0 : ℝ)) 0
        = 0.3 * edist ((fun _ : Fin 1 => ((0 : ℝ), (0 : ℝ))) 0)
            ((fun _ : Fin 1 => ((0 : ℝ), (0 : ℝ))) ((fun _ : Fin 1 => fun _ : Fin 30 => (0 : Fin 1)) 0 29)) ∧
    (0 < edist ((fun _ : Fin 1 => ((0 : ℝ), (0 : ℝ))) 0)
          ((fun _ : Fin 1 => ((0 : ℝ), (0 : ℝ))) ((fun _ : Fin 1 => fun _ : Fin 30 => (0 : Fin 1)) 0 29)) →
      0 < a0sup (fun _ : Fin 1 => fun _ : Fin 30 => (0 : ℝ)) 0) :=
  support_radius (fun _ : Fin 1 => ((0 : ℝ), (0 : ℝ)))
    (fun _ : Fin 1 => fun _ : Fin 30 => (0 : Fin 1)) (fun _ : Fin 1 => fun _ : Fin 30 => (0 : ℝ))
    (fun i j => by simp [edist]) 0

/-- C8: the pipeline fails with `InsufficientPoints` exactly when the cloud
has fewer than `k = 30` points, and the failure precedes the per-point work:
with at least 30 points the pipeline returns the per-point result and the
error never occurs. -/
theorem insufficient_points_guard {α : Type} (N : ℕ) (work : Unit → α) :
    (runPipeline N work = Except.error MLSError.insufficientPoints ↔ N < 30) ∧
    (30 ≤ N → runPipeline N work = Except.ok (work ())) := by
  constructor
  · constructor
    · intro h
      by_contra hN
      rw [runPipeline, kneighborsGuard, if_neg hN] at h
      exact Except.noConfusion h
    · intro h
      rw [runPipeline, kneighborsGuard, if_pos h]
      rfl
  · intro h
    rw [runPipeline, kneighborsGuard, if_neg (by omega : ¬ N < 30)]
    rfl

/-- C8 witness: a 5-point cloud fails with `InsufficientPoints`; a 30-point
cloud does not and performs the per-point work. -/
theorem insufficient_points_guard_witness :
    runPipeline 5 (fun _ => (0 : ℕ)) = Except.error MLSError.insufficientPoints ∧
    runPipeline 30 (fun _ => (0 : ℕ)) = Except.ok 0 :=
  ⟨(insufficient_points_guard 5 (fun _ => (0 : ℕ))).1.mpr (by norm_num),
    (insufficient_points_guard 30 (fun _ => (0 : ℕ))).2 (by norm_num)⟩

/-- Any operator assembled from the loop's triplets has the claimed row
structure: triplet semantics of `csc_matrix` with duplicate summing. -/
theorem cscAssemble_rowPattern {N : ℕ} (indices : Fin N → Fin 30 → Fin N)
    (vals : Fin N → Fin 30 → ℝ) :
    rowPattern indices vals (cscAssemble indices vals) := by
  intro r
  have hmem : ∀ c, cscAssemble indices vals r c ≠ 0 → c ∈ storedCols indices r := by
    intro c h
    by_contra hc
    apply h
    show (∑ j : Fin 30, if indices r j = c then vals r j else 0) = 0
    refine Finset.sum_eq_zero fun j _ => if_neg fun he => hc ?_
    exact Finset.mem_image.mpr ⟨j, Finset.mem_univ j, he⟩
  refine ⟨hmem, fun c => ?_, ?_⟩
  · show (∑ j : Fin 30, if indices r j = c then vals r j else 0)
        = ∑ j in Finset.univ.filter (fun j => indices r j = c), vals r j
    rw [Finset.sum_filter]
  · have hsub : Finset.univ.filter (fun c => cscAssemble indices vals r c ≠ 0)
        ⊆ storedCols indices r := by
      intro c hc
      exact hmem c (Finset.mem_filter.mp hc).2
    calc (Finset.univ.filter (fun c => cscAssemble indices vals r c ≠ 0)).card
        ≤ (storedCols indices r).card := Finset.card_le_card hsub
      _ ≤ Finset.univ.card := Finset.card_image_le.trans (le_of_eq rfl)
      _ = 30 := by simp

/-- C9: each of the five assembled operators has its row-`i` nonzeros only at
the neighbor columns of point `i`, entries for a repeated column summed and
hence at most `k = 30` nonzeros per row; the stored-column count is at most
30, and exactly 30 when the neighbor indices of the row are pairwise
distinct. -/
theorem operator_row_sparsity {N : ℕ} (nodes : Fin N → ℝ × ℝ)
    (indices : Fin N → Fin 30 → Fin N) (distances : Fin N → Fin 30 → ℝ)
    (IAs : Fin N → Matrix (Fin 6) (Fin 6) ℝ) :
    rowPattern indices (sfRow nodes indices distances IAs)
      (sfOp nodes indices distances IAs) ∧
    rowPattern indices (sfxRow nodes indices distances IAs)
      (sfxOp nodes indices distances IAs) ∧
    rowPattern indices (sfyRow nodes indices distances IAs)
      (sfyOp nodes indices distances IAs) ∧
    rowPattern indices (sfxxRow nodes indices distances IAs)
      (sfxxOp nodes indices distances IAs) ∧
    rowPattern indices (sfyyRow nodes indices distances IAs)
      (sfyyOp nodes indices distances IAs) ∧
    (∀ r, (storedCols indices r).card ≤ 30 ∧
      (Function.Injective (indices r) → (storedCols indices r).card = 30)) := by
  refine ⟨cscAssemble_rowPattern _ _, cscAssemble_rowPattern _ _,
    cscAssemble_rowPattern _ _, cscAssemble_rowPattern _ _,
    cscAssemble_rowPattern _ _, fun r => ⟨?_, fun hinj => ?_⟩⟩
  · calc (storedCols indices r).card
        ≤ Finset.univ.card := Finset.card_image_le.trans (le_of_eq rfl)
      _ = 30 := by simp
  · rw [storedCols, Finset.card_image_of_injective _ hinj]
    simp

/-- C9 witness: a 30-point cloud with the identity neighbor map (injective
rows), all coordinates and distances zero, and zero inverse matrices. -/
theorem operator_row_sparsity_witness :
    rowPattern (fun r : Fin 30 => fun j : Fin 30 => j)
      (sfRow (fun _ : Fin 30 => ((0 : ℝ), (0 : ℝ))) (fun r j => j)
        (fun _ _ => (0 : ℝ)) (fun _ => 0))
      (sfOp (fun _ : Fin 30 => ((0 : ℝ), (0 : ℝ))) (fun r j => j)
        (fun _ _ => (0 : ℝ)) (fun _ => 0)) ∧
    rowPattern (fun r : Fin 30 => fun j : Fin 30 => j)
      (sfxRow (fun _ : Fin 30 => ((0 : ℝ), (0 : ℝ))) (fun r j => j)
        (fun _ _ => (0 : ℝ)) (fun _ => 0))
      (sfxOp (fun _ : Fin 30 => ((0 : ℝ), (0 : ℝ))) (fun r j => j)
        (fun _ _ => (0 : ℝ)) (fun _ => 0)) ∧
    rowPattern (fun r : Fin 30 => fun j : Fin 30 => j)
      (sfyRow (fun _ : Fin 30 => ((0 : ℝ), (0 : ℝ))) (fun r j => j)
        (fun _ _ => (0 : ℝ)) (fun _ => 0))
      (sfyOp (fun _ : Fin 30 => ((0 : ℝ), (0 : ℝ))) (fun r j => j)
        (fun _ _ => (0 : ℝ)) (fun _ => 0)) ∧
    rowPattern (fun r : Fin 30 => fun j : Fin 30 => j)
      (sfxxRow (fun _ : Fin 30 => ((0 : ℝ), (0 : ℝ))) (fun r j => j)
        (fun _ _ => (0 : ℝ)) (fun _ => 0))
      (sfxxOp (fun _ : Fin 30 => ((0 : ℝ), (0 : ℝ))) (fun r j => j)
        (fun _ _ => (0 : ℝ)) (fun _ => 0)) ∧
    rowPattern (fun r : Fin 30 => fun j : Fin 30 => j)
      (sfyyRow (fun _ : Fin 30 => ((0 : ℝ), (0 : ℝ))) (fun r j => j)
        (fun _ _ => (0 : ℝ)) (fun _ => 0))
      (sfyyOp (fun _ : Fin 30 => ((0 : ℝ), (0 : ℝ))) (fun r j => j)
        (fun _ _ => (0 : ℝ)) (fun _ => 0)) ∧
    (∀ r : Fin 30, (storedCols (fun r : Fin 30 => fun j : Fin 30 => j) r).card ≤ 30 ∧
      (Function.Injective (fun j : Fin 30 => j) →
        (storedCols (fun r : Fin 30 => fun j : Fin 30 => j) r).card = 30)) :=
  operator_row_sparsity (fun _ : Fin 30 => ((0 : ℝ), (0 : ℝ))) (fun r j => j)
    (fun _ _ => (0 : ℝ)) (fun _ => 0)

/-- C10: the unguarded divisions by `a0²` and `a0⁴` are harmless whenever
`a0 > 0`: every kernel value is a well-defined finite real (no non-finite
branch of the float semantics is reached).  When all `k` neighbors coincide
with the point (`a0 = 0`, distance 0, identical coordinates), every kernel
value is NaN — non-finite values, not a raised structural error. -/
theorem kernel_division_safety (d a x0 x y0 y : ℝ) (ha : 0 < a) :
    (DnF (.fin d) (.fin a) = .fin (Real.exp (-(d / a) ^ 2)) ∧
      DxF x0 x (.fin d) (.fin a)
        = .fin (-2 / a ^ 2 * (x0 - x) * Real.exp (-(d / a) ^ 2)) ∧
      DyF y0 y (.fin d) (.fin a)
        = .fin (-2 / a ^ 2 * (y0 - y) * Real.exp (-(d / a) ^ 2)) ∧
      DxxF x0 x (.fin d) (.fin a)
        = .fin (-2 / a ^ 4 * (a ^ 2 - 2 * (x0 - x) ^ 2) * Real.exp (-(d / a) ^ 2)) ∧
      DyyF y0 y (.fin d) (.fin a)
        = .fin (-2 / a ^ 4 * (a ^ 2 - 2 * (y0 - y) ^ 2) * Real.exp (-(d / a) ^ 2))) ∧
    (DnF (.fin 0) (.fin 0) = .nan ∧
      DxF x0 x0 (.fin 0) (.fin 0) = .nan ∧
      DyF y0 y0 (.fin 0) (.fin 0) = .nan ∧
      DxxF x0 x0 (.fin 0) (.fin 0) = .nan ∧
      DyyF y0 y0 (.fin 0) (.fin 0) = .nan) := by
  have hane : a ≠ 0 := ha.ne'
  have haa : a * a ≠ 0 := mul_ne_zero hane hane
  have h4 : a * a * (a * a) ≠ 0 := mul_ne_zero haa haa
  have hDn : DnF (.fin d) (.fin a) = .fin (Real.exp (-(d / a) ^ 2)) := by
    simp [DnF, FloatV.fdiv, FloatV.fsq, FloatV.fmul, FloatV.fneg, FloatV.fexp, hane,
      pow_two]
  have hnanDn : DnF (.fin 0) (.fin 0) = .nan := by
    simp [DnF, FloatV.fdiv, FloatV.fsq, FloatV.fmul, FloatV.fneg, FloatV.fexp]
  have hnanDx : ∀ z : ℝ, DxF z z (.fin 0) (.fin 0) = .nan := by
    intro z
    norm_num [DxF, hnanDn, FloatV.fdiv, FloatV.fsq, FloatV.fmul, FloatV.fsub]
  have hnanDxx : ∀ z : ℝ, DxxF z z (.fin 0) (.fin 0) = .nan := by
    intro z
    norm_num [DxxF, hnanDn, FloatV.fdiv, FloatV.fsq, FloatV.fmul, FloatV.fsub]
  refine ⟨⟨hDn, ?_, ?_, ?_, ?_⟩, hnanDn, hnanDx x0, hnanDx y0, hnanDxx x0, hnanDxx y0⟩
  · norm_num [DxF, hDn, FloatV.fdiv, FloatV.fsq, FloatV.fmul, FloatV.fsub, haa, pow_two]
  · norm_num [DyF, DxF, hDn, FloatV.fdiv, FloatV.fsq, FloatV.fmul, FloatV.fsub, haa,
      pow_two]
  · norm_num [DxxF, hDn, FloatV.fdiv, FloatV.fsq, FloatV.fmul, FloatV.fsub, haa, h4,
      pow_two]
    ring_nf
    simp
  · norm_num [DyyF, DxxF, hDn, FloatV.fdiv, FloatV.fsq, FloatV.fmul, FloatV.fsub, haa,
      h4, pow_two]
    ring_nf
    simp

/-- C10 witness: the float-semantics kernel at distance 0, radius 1 and
coincident coordinates 0. -/
theorem kernel_division_safety_witness :
    (0 : ℝ) < 1 ∧
    ((DnF (.fin 0) (.fin 1) = .fin (Real.exp (-((0 : ℝ) / 1) ^ 2)) ∧
      DxF 0 0 (.fin 0) (.fin 1)
        = .fin (-2 / (1 : ℝ) ^ 2 * ((0 : ℝ) - 0) * Real.exp (-((0 : ℝ) / 1) ^ 2)) ∧
      DyF 0 0 (.fin 0) (.fin 1)
        = .fin (-2 / (1 : ℝ) ^ 2 * ((0 : ℝ) - 0) * Real.exp (-((0 : ℝ) / 1) ^ 2)) ∧
      DxxF 0 0 (.fin 0) (.fin 1)
        = .fin (-2 / (1 : ℝ) ^ 4 * ((1 : ℝ) ^ 2 - 2 * ((0 : ℝ) - 0) ^ 2)
            * Real.exp (-((0 : ℝ) / 1) ^ 2)) ∧
      DyyF 0 0 (.fin 0) (.fin 1)
        = .fin (-2 / (1 : ℝ) ^ 4 * ((1 : ℝ) ^ 2 - 2 * ((0 : ℝ) - 0) ^ 2)
            * Real.exp (-((0 : ℝ) / 1) ^ 2))) ∧
    (DnF (.fin 0) (.fin 0) = .nan ∧
      DxF 0 0 (.fin 0) (.fin 0) = .nan ∧
      DyF 0 0 (.fin 0) (.fin 0) = .nan ∧
      DxxF 0 0 (.fin 0) (.fin 0) = .nan ∧
      DyyF 0 0 (.fin 0) (.fin 0) = .nan)) :=
  ⟨by norm_num, kernel_division_safety 0 1 0 0 0 0 (by norm_num)⟩

end MLS
